import Mathlib

/-!
# Verification of the record-to-feature transformer

The repository's single piece of logic is the Python function
`row_to_labeled_point` (notebook `Sparkpython-checkpoint.ipynb`):

```python
def row_to_labeled_point(line):
    passenger_id, klass, age, sex, survived = [segs.strip('"') for segs in line.split(',')]
    klass = int(klass[0]) - 1
    if (age not in ['adults', 'child'] or
        sex not in ['man', 'women'] or
        survived not in ['yes', 'no']):
        raise RuntimeError('unknown value')
    features = [
        klass,
        (1 if age == 'adults' else 0),
        (1 if sex == 'women' else 0)
    ]
    return LabeledPoint(1 if survived == 'yes' else 0, features)
```

We embed it shallowly over `List Char` (a line of text is its list of
characters).  Exceptions become an explicit `Except` result:

* the tuple-unpacking `ValueError` (wrong number of comma-separated
  segments), the `IndexError` from `klass[0]` on an empty class field, and
  the `ValueError` from `int(...)` on a non-digit character are the spec's
  `StructuralError`;
* the explicit `RuntimeError('unknown value')` is the spec's
  `ValidationError`.
-/

/-- The two error kinds of the spec's §7. `structural`: the line does not
split into five fields, or the class field has no leading digit.
`validation`: a categorical field holds a value outside its closed set. -/
inductive RowError where
  | structural
  | validation
deriving DecidableEq, Repr

/-- The labeled feature record (`LabeledPoint(label, features)`). -/
structure LabeledPoint where
  label : Int
  features : List Int
deriving DecidableEq, Repr

/-- Python `line.split(',')` on a list of characters: split at every
separator occurrence, keeping empty segments; the empty string yields
`[[]]` (Python: `''.split(',') == ['']`). -/
def pySplit (sep : Char) : List Char → List (List Char)
  | [] => [[]]
  | c :: cs =>
    if c = sep then [] :: pySplit sep cs
    else (c :: (pySplit sep cs).headD []) :: (pySplit sep cs).tail

/-- Python `segs.strip('"')`: remove every leading and trailing
double-quote character. -/
def pyStrip (s : List Char) : List Char :=
  (((s.dropWhile (fun c => c = '"')).reverse.dropWhile (fun c => c = '"')).reverse)

/-- The list `[segs.strip('"') for segs in line.split(',')]`. -/
def segsOf (line : List Char) : List (List Char) :=
  (pySplit ',' line).map pyStrip

/-- The transformer after the split-and-strip comprehension: the
tuple unpacking, the `int(klass[0]) - 1` conversion, the categorical
validation and the record construction, in the source's order. -/
def rowFromSegs : List (List Char) → Except RowError LabeledPoint
  | [_passenger_id, klass, age, sex, survived] =>
    match klass with
    | [] => .error .structural
    | c :: _ =>
      if c.isDigit then
        if age ∉ ["adults".toList, "child".toList] ∨
            sex ∉ ["man".toList, "women".toList] ∨
            survived ∉ ["yes".toList, "no".toList] then
          .error .validation
        else
          .ok { label := if survived = "yes".toList then 1 else 0
                features := [((c.toNat - '0'.toNat : Nat) : Int) - 1,
                             if age = "adults".toList then 1 else 0,
                             if sex = "women".toList then 1 else 0] }
      else
        .error .structural
  | _ => .error .structural

/-- The full transformer `row_to_labeled_point` on one line of text. -/
def row_to_labeled_point (line : List Char) : Except RowError LabeledPoint :=
  rowFromSegs (segsOf line)

/-- Wrap a field's content in double quotes. -/
def quoteF (f : List Char) : List Char := '"' :: (f ++ ['"'])

/-- Join fields into one comma-separated line. -/
def joinC : List (List Char) → List Char
  | [] => []
  | [f] => f
  | f :: g :: fs => f ++ ',' :: joinC (g :: fs)

/-- Quote the fields selected by a boolean mask (`true` = wrap that field
in double quotes), leaving the rest unchanged. -/
def applyQuotes (bs : List Bool) : List (List Char) → List (List Char)
  | [] => []
  | f :: fs => (if bs.headD false then quoteF f else f) :: applyQuotes bs.tail fs

instance : DecidableEq (Except RowError LabeledPoint) := fun a b =>
  match a, b with
  | .ok x, .ok y => decidable_of_iff (x = y) (by simp)
  | .error x, .error y => decidable_of_iff (x = y) (by simp)
  | .ok _, .error _ => isFalse (by simp)
  | .error _, .ok _ => isFalse (by simp)

-- sanity checks of the embedding against Python's behaviour
example : pySplit ',' "a,b".toList = ["a".toList, "b".toList] := by decide
example : pySplit ',' [] = [[]] := by decide
example : pySplit ',' ",".toList = [[], []] := by decide
example : pyStrip "\"1st\"".toList = "1st".toList := by decide
example : pyStrip "\"\"x\"".toList = "x".toList := by decide
example : row_to_labeled_point "7,\"1st\",\"adults\",\"women\",\"yes\"".toList
    = .ok ⟨1, [0, 1, 1]⟩ := by decide
example : row_to_labeled_point "7,3rd,child,man,no".toList
    = .ok ⟨0, [2, 0, 0]⟩ := by decide
example : row_to_labeled_point "7,1st,adults,women".toList
    = .error .structural := by decide
example : row_to_labeled_point "7,xx,adults,women,yes".toList
    = .error .structural := by decide
example : row_to_labeled_point "7,1st,bad,women,yes".toList
    = .error .validation := by decide

/-! ## Lemmas about the Python-style split -/

theorem pySplit_ne_nil (sep : Char) (l : List Char) : pySplit sep l ≠ [] := by
  cases l with
  | nil => simp [pySplit]
  | cons c cs =>
    by_cases h : c = sep <;> simp [pySplit, h]

theorem pySplit_cons_sep (sep : Char) (cs : List Char) :
    pySplit sep (sep :: cs) = [] :: pySplit sep cs := by
  simp [pySplit]

theorem pySplit_cons_ne (sep c : Char) (cs : List Char) (h : ¬ c = sep) :
    pySplit sep (c :: cs)
      = (c :: (pySplit sep cs).headD []) :: (pySplit sep cs).tail := by
  simp [pySplit, h]

theorem pySplit_append_sep (sep : Char) (xs ys : List Char) :
    pySplit sep (xs ++ sep :: ys) = pySplit sep xs ++ pySplit sep ys := by
  induction xs with
  | nil => simp [pySplit_cons_sep, pySplit]
  | cons c cs ih =>
    by_cases h : c = sep
    · subst h
      simp only [List.cons_append, pySplit_cons_sep, ih, List.cons_append]
    · obtain ⟨h0, t0, ht⟩ : ∃ h0 t0, pySplit sep cs = h0 :: t0 := by
        cases hh : pySplit sep cs with
        | nil => exact absurd hh (pySplit_ne_nil sep cs)
        | cons a b => exact ⟨a, b, rfl⟩
      simp only [List.cons_append, pySplit_cons_ne sep c _ h, ih, ht,
        List.headD_cons, List.tail_cons, List.cons_append, List.append_eq]

/-- Apply a function to the last element of a list only. -/
def mapLast (g : List Char → List Char) : List (List Char) → List (List Char)
  | [] => []
  | [a] => [g a]
  | a :: b :: l => a :: mapLast g (b :: l)

theorem mapLast_cons_of_ne_nil (g : List Char → List Char) (a : List Char)
    (l : List (List Char)) (h : l ≠ []) :
    mapLast g (a :: l) = a :: mapLast g l := by
  cases l with
  | nil => exact absurd rfl h
  | cons b t => rfl

theorem pySplit_append_single (sep c : Char) (h : ¬ c = sep) (xs : List Char) :
    pySplit sep (xs ++ [c]) = mapLast (· ++ [c]) (pySplit sep xs) := by
  induction xs with
  | nil =>
    simp [pySplit, h, mapLast]
  | cons x cs ih =>
    by_cases hx : x = sep
    · subst hx
      rw [List.cons_append, pySplit_cons_sep, pySplit_cons_sep, ih,
        mapLast_cons_of_ne_nil _ _ _ (pySplit_ne_nil _ cs)]
    · obtain ⟨h0, t0, ht⟩ : ∃ h0 t0, pySplit sep cs = h0 :: t0 := by
        cases hh : pySplit sep cs with
        | nil => exact absurd hh (pySplit_ne_nil sep cs)
        | cons a b => exact ⟨a, b, rfl⟩
      rw [List.cons_append, pySplit_cons_ne sep x _ hx, ih, ht,
        pySplit_cons_ne sep x _ hx, ht]
      cases t0 with
      | nil => simp [mapLast]
      | cons u us => simp [mapLast]

theorem length_pySplit_pos (sep : Char) (l : List Char) :
    1 ≤ (pySplit sep l).length := by
  cases hh : pySplit sep l with
  | nil => exact absurd hh (pySplit_ne_nil sep l)
  | cons a b => simp

theorem length_pySplit_of_mem (sep : Char) (l : List Char) (h : sep ∈ l) :
    2 ≤ (pySplit sep l).length := by
  induction l with
  | nil => cases h
  | cons c cs ih =>
    by_cases hc : c = sep
    · subst hc
      rw [pySplit_cons_sep]
      have := length_pySplit_pos c cs
      simp only [List.length_cons]
      omega
    · have hmem : sep ∈ cs := by
        cases h with
        | head => exact absurd rfl hc
        | tail _ h => exact h
      obtain ⟨h0, t0, ht⟩ : ∃ h0 t0, pySplit sep cs = h0 :: t0 := by
        cases hh : pySplit sep cs with
        | nil => exact absurd hh (pySplit_ne_nil sep cs)
        | cons a b => exact ⟨a, b, rfl⟩
      have h2 := ih hmem
      rw [pySplit_cons_ne sep c _ hc, ht] at *
      simp only [List.headD_cons, List.tail_cons, List.length_cons] at *
      omega

/-! ## Lemmas about quote-stripping -/

theorem pyStrip_cons_quote (s : List Char) : pyStrip ('"' :: s) = pyStrip s := by
  simp [pyStrip, List.dropWhile]

theorem dropWhile_quote_append (s : List Char) :
    (s ++ ['"']).dropWhile (fun c => c = '"')
      = if (s.dropWhile (fun c => c = '"')) = [] then []
        else s.dropWhile (fun c => c = '"') ++ ['"'] := by
  induction s with
  | nil => simp [List.dropWhile]
  | cons c cs ih =>
    by_cases hc : c = '"'
    · subst hc
      simpa [List.dropWhile] using ih
    · simp [List.dropWhile, hc]

theorem pyStrip_append_quote (s : List Char) : pyStrip (s ++ ['"']) = pyStrip s := by
  unfold pyStrip
  rw [dropWhile_quote_append]
  by_cases h : s.dropWhile (fun c => c = '"') = []
  · simp [h]
  · simp only [h, if_false]
    rw [List.reverse_append]
    simp [List.dropWhile]

theorem mapLast_ne_nil (g : List Char → List Char) (l : List (List Char))
    (h : l ≠ []) : mapLast g l ≠ [] := by
  cases l with
  | nil => exact absurd rfl h
  | cons a t => cases t <;> simp [mapLast]

theorem map_pyStrip_mapLast (l : List (List Char)) :
    (mapLast (· ++ ['"']) l).map pyStrip = l.map pyStrip := by
  induction l with
  | nil => rfl
  | cons a t ih =>
    cases t with
    | nil => simp [mapLast, pyStrip_append_quote]
    | cons b t' =>
      rw [mapLast_cons_of_ne_nil _ _ _ (by simp)]
      simp only [List.map_cons] at *
      rw [ih]

/-! ## Lemmas about `segsOf` -/

theorem segsOf_append_comma (xs ys : List Char) :
    segsOf (xs ++ ',' :: ys) = segsOf xs ++ segsOf ys := by
  simp [segsOf, pySplit_append_sep]

theorem segsOf_quoteF (f : List Char) : segsOf (quoteF f) = segsOf f := by
  unfold segsOf quoteF
  rw [pySplit_cons_ne ',' '"' _ (by decide),
    pySplit_append_single ',' '"' (by decide) f]
  obtain ⟨h0, t0, ht⟩ : ∃ h0 t0, pySplit ',' f = h0 :: t0 := by
    cases hh : pySplit ',' f with
    | nil => exact absurd hh (pySplit_ne_nil ',' f)
    | cons a b => exact ⟨a, b, rfl⟩
  rw [ht]
  cases t0 with
  | nil =>
    simp [mapLast, pyStrip_cons_quote, pyStrip_append_quote]
  | cons u us =>
    rw [mapLast_cons_of_ne_nil _ _ _ (by simp)]
    simp only [List.headD_cons, List.tail_cons, List.map_cons]
    rw [pyStrip_cons_quote]
    have := map_pyStrip_mapLast (u :: us)
    rw [this]
    simp

theorem segsOf_applyQuotes (fs : List (List Char)) :
    ∀ bs : List Bool, segsOf (joinC (applyQuotes bs fs)) = segsOf (joinC fs) := by
  induction fs with
  | nil => intro bs; rfl
  | cons f fs ih =>
    intro bs
    cases fs with
    | nil =>
      have hq : applyQuotes bs [f] = [if bs.headD false then quoteF f else f] := rfl
      rw [hq]
      by_cases hb : bs.headD false = true
      · rw [if_pos hb]
        exact segsOf_quoteF f
      · rw [if_neg hb]
    | cons f2 fs2 =>
      have hcons : applyQuotes bs.tail (f2 :: fs2)
          = (if bs.tail.headD false then quoteF f2 else f2)
            :: applyQuotes bs.tail.tail fs2 := rfl
      calc segsOf (joinC (applyQuotes bs (f :: f2 :: fs2)))
          = segsOf (joinC ((if bs.headD false then quoteF f else f)
              :: applyQuotes bs.tail (f2 :: fs2))) := rfl
        _ = segsOf ((if bs.headD false then quoteF f else f)
              ++ ',' :: joinC (applyQuotes bs.tail (f2 :: fs2))) := by
              rw [hcons]; rfl
        _ = segsOf (if bs.headD false then quoteF f else f)
              ++ segsOf (joinC (applyQuotes bs.tail (f2 :: fs2))) :=
              segsOf_append_comma _ _
        _ = segsOf f ++ segsOf (joinC (f2 :: fs2)) := by
              rw [ih bs.tail]
              by_cases hb : bs.headD false = true
              · rw [if_pos hb, segsOf_quoteF]
              · rw [if_neg hb]
        _ = segsOf (joinC (f :: f2 :: fs2)) := (segsOf_append_comma _ _).symm

/-! ## Lemmas about the transformer itself -/

theorem rowFromSegs_length_ne_five (segs : List (List Char))
    (h : segs.length ≠ 5) : rowFromSegs segs = .error .structural := by
  rcases segs with _ | ⟨s1, _ | ⟨s2, _ | ⟨s3, _ | ⟨s4, _ | ⟨s5, _ | ⟨s6, rest⟩⟩⟩⟩⟩⟩
  · rfl
  · rfl
  · rfl
  · rfl
  · rfl
  · exact absurd rfl h
  · rfl

theorem rowFromSegs_five_nil (pid a s v : List Char) :
    rowFromSegs [pid, [], a, s, v] = .error .structural := rfl

theorem rowFromSegs_five_cons (pid : List Char) (c : Char) (ks a s v : List Char) :
    rowFromSegs [pid, c :: ks, a, s, v]
      = if c.isDigit then
          if a ∉ ["adults".toList, "child".toList] ∨
              s ∉ ["man".toList, "women".toList] ∨
              v ∉ ["yes".toList, "no".toList] then
            .error .validation
          else
            .ok { label := if v = "yes".toList then 1 else 0
                  features := [((c.toNat - '0'.toNat : Nat) : Int) - 1,
                               if a = "adults".toList then 1 else 0,
                               if s = "women".toList then 1 else 0] }
        else
          .error .structural := rfl

theorem split_length_ne_five_structural (line : List Char)
    (h : (pySplit ',' line).length ≠ 5) :
    row_to_labeled_point line = .error .structural := by
  unfold row_to_labeled_point
  apply rowFromSegs_length_ne_five
  simpa [segsOf] using h

theorem toNat_bounds_of_isDigit (c : Char) (h : c.isDigit = true) :
    48 ≤ c.toNat ∧ c.toNat ≤ 57 := by
  simp only [Char.isDigit, Bool.and_eq_true, decide_eq_true_eq, ge_iff_le] at h
  obtain ⟨h1, h2⟩ := h
  exact ⟨UInt32.le_toNat_of_le (by decide) h1, UInt32.toNat_le_of_le (by decide) h2⟩

/-! ## The claims -/

/-- C1: for every input line that splits on commas into exactly five fields
and whose class field (after quote-stripping) begins with a digit, the
transformer fails with a validation error if and only if the age field is
not in `{adults, child}`, or the sex field is not in `{man, women}`, or the
survival field is not in `{yes, no}`; otherwise it returns the fully
constructed labeled feature record — never a partial or defaulted one. -/
theorem row_validation_characterization (line pid k a s v : List Char)
    (c : Char) (ks : List Char)
    (hseg : segsOf line = [pid, k, a, s, v]) (hk : k = c :: ks)
    (hc : c.isDigit = true) :
    row_to_labeled_point line
      = if a ∉ ["adults".toList, "child".toList] ∨
            s ∉ ["man".toList, "women".toList] ∨
            v ∉ ["yes".toList, "no".toList] then
          .error .validation
        else
          .ok { label := if v = "yes".toList then 1 else 0
                features := [((c.toNat - '0'.toNat : Nat) : Int) - 1,
                             if a = "adults".toList then 1 else 0,
                             if s = "women".toList then 1 else 0] } := by
  unfold row_to_labeled_point
  rw [hseg, hk, rowFromSegs_five_cons, if_pos hc]

/-- Witness for C1 at a concrete valid line. -/
theorem row_validation_characterization_witness :
    row_to_labeled_point "1,2nd,child,man,no".toList = .ok ⟨0, [1, 0, 0]⟩ := by
  rw [row_validation_characterization "1,2nd,child,man,no".toList
    "1".toList "2nd".toList "child".toList "man".toList "no".toList
    '2' "nd".toList (by decide) (by decide) (by decide)]
  decide

/-- C2: every five-field line whose class field is `1st`, age field
`adults`, sex field `women` and survival field `yes` (each optionally
wrapped in double quotes, which `segsOf` strips) maps to the record with
label 1 and features `[0, 1, 1]`. -/
theorem row_first_class_adult_woman_yes (line pid : List Char)
    (hseg : segsOf line
      = [pid, "1st".toList, "adults".toList, "women".toList, "yes".toList]) :
    row_to_labeled_point line = .ok ⟨1, [0, 1, 1]⟩ := by
  unfold row_to_labeled_point
  rw [hseg]
  rfl

/-- Witness for C2 at a concrete quoted line. -/
theorem row_first_class_adult_woman_yes_witness :
    row_to_labeled_point "7,\"1st\",\"adults\",\"women\",\"yes\"".toList
      = .ok ⟨1, [0, 1, 1]⟩ :=
  row_first_class_adult_woman_yes _ "7".toList (by decide)

/-- C3: every five-field line whose class field is `3rd`, age field
`child`, sex field `man` and survival field `no` maps to the record with
label 0 and features `[2, 0, 0]`. -/
theorem row_third_class_child_man_no (line pid : List Char)
    (hseg : segsOf line
      = [pid, "3rd".toList, "child".toList, "man".toList, "no".toList]) :
    row_to_labeled_point line = .ok ⟨0, [2, 0, 0]⟩ := by
  unfold row_to_labeled_point
  rw [hseg]
  rfl

/-- Witness for C3 at a concrete line. -/
theorem row_third_class_child_man_no_witness :
    row_to_labeled_point "42,3rd,child,man,no".toList = .ok ⟨0, [2, 0, 0]⟩ :=
  row_third_class_child_man_no _ "42".toList (by decide)

/-- C4: quote-stripping invariance — wrapping any subset of a line's
fields in double quotes (the boolean mask picks which) never changes the
transformer's outcome: same record on success, same failure on
rejection. -/
theorem row_quote_stripping_invariant (bs : List Bool) (fs : List (List Char)) :
    row_to_labeled_point (joinC (applyQuotes bs fs))
      = row_to_labeled_point (joinC fs) := by
  unfold row_to_labeled_point
  rw [segsOf_applyQuotes]

/-- C5: every input line that splits on commas into fewer or more than
five segments is rejected with a structural error — never silently
truncated, padded, or turned into a record. -/
theorem row_wrong_field_count_structural (line : List Char)
    (h : (pySplit ',' line).length ≠ 5) :
    row_to_labeled_point line = .error .structural :=
  split_length_ne_five_structural line h

/-- Witness for C5 at a concrete four-field line. -/
theorem row_wrong_field_count_structural_witness :
    (pySplit ',' "1,2nd,adults,women".toList).length ≠ 5 ∧
    row_to_labeled_point "1,2nd,adults,women".toList = .error .structural :=
  ⟨by decide, row_wrong_field_count_structural _ (by decide)⟩

/-- C6, counterexample: the claim that feature 0 only takes the values
0, 1 or 2 fails — the code performs no range check on the class digit, so
the line `9,4th,adults,women,yes` is accepted with feature 0 equal to 3. -/
theorem row_class_index_out_of_range_cex :
    row_to_labeled_point "9,4th,adults,women,yes".toList
      = .ok ⟨1, [3, 1, 1]⟩ ∧
    ((3 : Int) ≠ 0 ∧ (3 : Int) ≠ 1 ∧ (3 : Int) ≠ 2) := by
  exact ⟨by decide, by decide, by decide, by decide⟩

/-- C6, amended: for every successfully constructed labeled feature
record, feature 0 (the first digit of the class field minus one) lies
between −1 and 8; the code never restricts it to {0, 1, 2}. -/
theorem row_class_index_bounds (line : List Char) (lp : LabeledPoint)
    (h : row_to_labeled_point line = .ok lp) :
    -1 ≤ lp.features.headD 0 ∧ lp.features.headD 0 ≤ 8 := by
  unfold row_to_labeled_point at h
  rcases hsegs : segsOf line with
    _ | ⟨s1, _ | ⟨s2, _ | ⟨s3, _ | ⟨s4, _ | ⟨s5, _ | ⟨s6, rest⟩⟩⟩⟩⟩⟩ <;>
    rw [hsegs] at h
  · exact Except.noConfusion h
  · exact Except.noConfusion h
  · exact Except.noConfusion h
  · exact Except.noConfusion h
  · exact Except.noConfusion h
  · cases s2 with
    | nil =>
      rw [rowFromSegs_five_nil] at h
      exact Except.noConfusion h
    | cons c ks =>
      rw [rowFromSegs_five_cons] at h
      by_cases hc : c.isDigit = true
      · rw [if_pos hc] at h
        by_cases hval : s3 ∉ ["adults".toList, "child".toList] ∨
            s4 ∉ ["man".toList, "women".toList] ∨
            s5 ∉ ["yes".toList, "no".toList]
        · rw [if_pos hval] at h
          exact Except.noConfusion h
        · rw [if_neg hval] at h
          have hlp := Except.ok.inj h
          obtain ⟨hb1, hb2⟩ := toNat_bounds_of_isDigit c hc
          have h0 : '0'.toNat = 48 := rfl
          rw [← hlp]
          simp only [List.headD_cons, h0]
          omega
      · rw [if_neg hc] at h
        exact Except.noConfusion h
  · exact Except.noConfusion h

/-- Witness for the amended C6 at a concrete accepted line. -/
theorem row_class_index_bounds_witness :
    row_to_labeled_point "7,1st,adults,women,yes".toList = .ok ⟨1, [0, 1, 1]⟩ ∧
    -1 ≤ (([0, 1, 1] : List Int).headD 0) ∧ (([0, 1, 1] : List Int).headD 0) ≤ 8 :=
  ⟨by decide,
   (row_class_index_bounds "7,1st,adults,women,yes".toList ⟨1, [0, 1, 1]⟩ (by decide)).1,
   (row_class_index_bounds "7,1st,adults,women,yes".toList ⟨1, [0, 1, 1]⟩ (by decide)).2⟩

/-- C7, counterexample: an invalid age field does not always raise a
validation error — on `1,xx,notage,man,yes` the age field `notage` is
outside `{adults, child}`, yet the class field `xx` has no leading digit
and the transformer fails with a structural error instead. -/
theorem row_invalid_age_not_validation_cex :
    segsOf "1,xx,notage,man,yes".toList
      = ["1".toList, "xx".toList, "notage".toList, "man".toList, "yes".toList] ∧
    "notage".toList ∉ ["adults".toList, "child".toList] ∧
    row_to_labeled_point "1,xx,notage,man,yes".toList = .error .structural ∧
    RowError.structural ≠ RowError.validation := by
  exact ⟨by decide, by decide, by decide, by decide⟩

/-- C7, amended: for every five-field line whose class field begins with
a digit, an age field outside `{adults, child}` raises a validation
error, regardless of the sex and survival fields. -/
theorem row_invalid_age_validation (line pid k a s v : List Char)
    (c : Char) (ks : List Char)
    (hseg : segsOf line = [pid, k, a, s, v]) (hk : k = c :: ks)
    (hc : c.isDigit = true)
    (ha1 : a ≠ "adults".toList) (ha2 : a ≠ "child".toList) :
    row_to_labeled_point line = .error .validation := by
  unfold row_to_labeled_point
  rw [hseg, hk, rowFromSegs_five_cons, if_pos hc,
    if_pos (Or.inl (by
      intro hmem
      rcases List.mem_cons.mp hmem with hm | hm
      · exact ha1 hm
      · exact ha2 (List.mem_singleton.mp hm)))]

/-- Witness for the amended C7 at a concrete line. -/
theorem row_invalid_age_validation_witness :
    row_to_labeled_point "2,2nd,badage,women,yes".toList = .error .validation :=
  row_invalid_age_validation "2,2nd,badage,women,yes".toList
    "2".toList "2nd".toList "badage".toList "women".toList "yes".toList
    '2' "nd".toList (by decide) (by decide) (by decide) (by decide) (by decide)

/-- C8: error-check ordering — on a five-field line whose class field
lacks a leading digit the transformer fails with a structural error,
never a validation error, whatever the age, sex and survival fields
hold. -/
theorem row_structural_before_validation (line pid k a s v : List Char)
    (hseg : segsOf line = [pid, k, a, s, v])
    (hk : (k.headD ' ').isDigit = false) :
    row_to_labeled_point line = .error .structural := by
  unfold row_to_labeled_point
  rw [hseg]
  cases k with
  | nil => exact rowFromSegs_five_nil pid a s v
  | cons c ks =>
    simp only [List.headD_cons] at hk
    rw [rowFromSegs_five_cons, if_neg (by simp [hk])]

/-- Witness for C8: a line whose class field is non-numeric and whose
categorical fields are also invalid still fails structurally. -/
theorem row_structural_before_validation_witness :
    row_to_labeled_point "5,xx,badage,badsex,maybe".toList = .error .structural :=
  row_structural_before_validation "5,xx,badage,badsex,maybe".toList
    "5".toList "xx".toList "badage".toList "badsex".toList "maybe".toList
    (by decide) (by decide)

/-- C9: the transformer is a deterministic function of the line's text
alone — two applications to equal lines yield identical results. -/
theorem row_deterministic (l1 l2 : List Char) (h : l1 = l2) :
    row_to_labeled_point l1 = row_to_labeled_point l2 := by
  rw [h]

/-- Witness for C9 at a concrete line. -/
theorem row_deterministic_witness :
    row_to_labeled_point "1,1st,adults,women,yes".toList
      = row_to_labeled_point "1,1st,adults,women,yes".toList :=
  row_deterministic _ _ rfl

theorem length_pySplit_joinC (fs : List (List Char)) (hne : fs ≠ []) :
    (pySplit ',' (joinC fs)).length
      = (fs.map (fun f => (pySplit ',' f).length)).sum := by
  induction fs with
  | nil => exact absurd rfl hne
  | cons f fs ih =>
    cases fs with
    | nil => simp [joinC]
    | cons g gs =>
      have hj : joinC (f :: g :: gs) = f ++ ',' :: joinC (g :: gs) := rfl
      rw [hj, pySplit_append_sep, List.length_append, ih (by simp)]
      simp

/-- C10: splitting happens on every comma before quote-stripping, so
double quotes do not protect an embedded comma — a five-field line in
which some field's content contains a comma (whether or not fields are
quoted, the mask picks which) splits into more than five segments and the
transformer fails with a structural error. -/
theorem row_embedded_comma_structural (f1 f2 f3 f4 f5 : List Char)
    (bs : List Bool)
    (hm : ',' ∈ f1 ∨ ',' ∈ f2 ∨ ',' ∈ f3 ∨ ',' ∈ f4 ∨ ',' ∈ f5) :
    5 < (pySplit ',' (joinC (applyQuotes bs [f1, f2, f3, f4, f5]))).length ∧
    row_to_labeled_point (joinC (applyQuotes bs [f1, f2, f3, f4, f5]))
      = .error .structural := by
  have hlen : (pySplit ',' (joinC (applyQuotes bs [f1, f2, f3, f4, f5]))).length
      = (pySplit ',' (joinC [f1, f2, f3, f4, f5])).length := by
    have hs := segsOf_applyQuotes [f1, f2, f3, f4, f5] bs
    have hmap : ∀ l, (segsOf l).length = (pySplit ',' l).length := by
      intro l; simp [segsOf]
    rw [← hmap, ← hmap, hs]
  have hgt : 5 < (pySplit ',' (joinC [f1, f2, f3, f4, f5])).length := by
    rw [length_pySplit_joinC _ (by simp)]
    simp only [List.map_cons, List.map_nil, List.sum_cons, List.sum_nil]
    have g1 := length_pySplit_pos ',' f1
    have g2 := length_pySplit_pos ',' f2
    have g3 := length_pySplit_pos ',' f3
    have g4 := length_pySplit_pos ',' f4
    have g5 := length_pySplit_pos ',' f5
    rcases hm with h | h | h | h | h
    · have := length_pySplit_of_mem ',' f1 h; omega
    · have := length_pySplit_of_mem ',' f2 h; omega
    · have := length_pySplit_of_mem ',' f3 h; omega
    · have := length_pySplit_of_mem ',' f4 h; omega
    · have := length_pySplit_of_mem ',' f5 h; omega
  refine ⟨by omega, split_length_ne_five_structural _ (by omega)⟩

/-- Witness for C10: quoting the comma-carrying age field does not keep
the line together. -/
theorem row_embedded_comma_structural_witness :
    (',' ∈ "7".toList ∨ ',' ∈ "1st".toList ∨ ',' ∈ "adu,lts".toList ∨
      ',' ∈ "women".toList ∨ ',' ∈ "yes".toList) ∧
    5 < (pySplit ','
      (joinC (applyQuotes [true, true, true, true, true]
        ["7".toList, "1st".toList, "adu,lts".toList, "women".toList,
          "yes".toList]))).length ∧
    row_to_labeled_point
      (joinC (applyQuotes [true, true, true, true, true]
        ["7".toList, "1st".toList, "adu,lts".toList, "women".toList,
          "yes".toList])) = .error .structural := by
  refine ⟨by decide, ?_, ?_⟩
  · exact (row_embedded_comma_structural "7".toList "1st".toList
      "adu,lts".toList "women".toList "yes".toList
      [true, true, true, true, true] (by decide)).1
  · exact (row_embedded_comma_structural "7".toList "1st".toList
      "adu,lts".toList "women".toList "yes".toList
      [true, true, true, true, true] (by decide)).2
